import Mathlib

/-!
Shallow embedding of the article-management backend
(`src/api/services/ArticleService.ts` and the DTO/entity model it uses).

External collaborators (document-storage adapter, publishing-platform
adapter, relational repository, event dispatcher) are modelled as a pure
environment of oracle results plus an explicit trace of emitted effects,
so that call counts and call ordering are provable facts.
-/

namespace ArticleManagement

/-- `Author` entity (`src/api/models/Author.ts`, extending `User`):
identity fields plus school / biography / country. -/
structure Author where
  id : String
  name : String
  email : String
  school : String
  biography : String
  country : String
deriving DecidableEq

/-- `Editor` entity (`src/api/models/Editor.ts`, extending `User`). -/
structure Editor where
  id : String
  name : String
  email : String
deriving DecidableEq

/-- `Article` entity: title, drive identifiers, optional wordpress post id,
author and editor associations. -/
structure Article where
  id : String
  title : String
  folderId : String
  docId : String
  markingGridId : String
  wordpressId : Option String
  authors : List Author
  editors : List Editor
deriving DecidableEq

/-- `AuthorDTO` (`src/api/models/dto/AuthorDTO.ts`): five `@IsNotEmpty`
string fields. -/
structure AuthorDTO where
  name : String
  email : String
  school : String
  biography : String
  country : String
deriving DecidableEq

/-- `ArticleDTO`: the submitted article data (title and author entries). -/
structure ArticleDTO where
  title : String
  authors : List AuthorDTO
deriving DecidableEq

/-- The uploaded `Express.Multer.File`; only `mimetype` is inspected by the
service, `content` stands for the raw payload passed to `createFile`. -/
structure UploadedFile where
  mimetype : String
  content : String
deriving DecidableEq

/-- One `class-validator` `ValidationError` record as built by
`validateFile`: a property name and a constraint message. -/
structure ValidationErrorItem where
  property : String
  constraint : String
deriving DecidableEq

/-- How `create` can fail before reaching the drive:
`genericError` models the bare `throw new Error()` at the author check,
`validationErrors` models throwing the `ValidationError[]` aggregate
built by `validateFile`. -/
inductive CreateError where
  | genericError
  | validationErrors (errs : List ValidationErrorItem)
deriving DecidableEq

/-- Observable effects of a service run: document-storage adapter calls,
repository saves, event dispatches, publishing-platform calls. -/
inductive Effect where
  | driveCreateFolder (name parentId : String)
  | driveCreateFile (name mimeType parentId : String)
  | driveCopy (source dest name : String)
  | driveShareFile (id role email : String)
  | repoSave (a : Article)
  | dispatchCreated (a : Article)
  | dispatchAssigned (a : Article) (e : Editor)
  | wpPublishArticle (a : Article)
  | wpGetArticle (a : Article)
deriving DecidableEq

/-- `validateSync` on an `AuthorDTO`: every `@IsNotEmpty` field that is
empty contributes one violation. -/
def validateSyncAuthor (a : AuthorDTO) : List String :=
  (if a.name = "" then ["name"] else []) ++
  (if a.email = "" then ["email"] else []) ++
  (if a.school = "" then ["school"] else []) ++
  (if a.biography = "" then ["biography"] else []) ++
  (if a.country = "" then ["country"] else [])

/-- The guard on line 63 of `ArticleService.create`:
`articleDto.authors.length < 1 || articleDto.authors.some(a => validateSync(a).length > 0)`. -/
def authorsInvalid (dto : ArticleDTO) : Bool :=
  decide (dto.authors.length < 1) ||
    dto.authors.any (fun a => decide ((validateSyncAuthor a).length > 0))

/-- `ArticleService.validateFile`: a single aggregated violation when the
mime type is not among the allowed formats, else no violations. -/
def validateFile (allowed : List String) (file : UploadedFile) : List ValidationErrorItem :=
  if allowed.contains file.mimetype then []
  else [{ property := "file",
          constraint := "MimeType must be one of [" ++ String.intercalate ", " allowed ++ "]" }]

/-- Environment of oracle results for one `create` run: configuration
(`env.google.parent`, `env.google.marking_grid`, `ALLOWED_FORMATS`), the
author store behind `authorService.findByEmail`, the identifiers the
drive adapter returns, whether the fire-and-forget `shareFile` calls
succeed, and the `uuid.v4()` result. -/
structure Env where
  googleParent : String
  markingGrid : String
  allowedFormats : List String
  authorStore : List Author
  createFolderRes : String
  createFileRes : String
  copyRes : String
  shareOk : Bool
  genId : String

/-- `authorService.findByEmail`: first stored author with the given email. -/
def findByEmail (env : Env) (email : String) : Option Author :=
  env.authorStore.find? (fun a => a.email = email)

/-- `plainToClass(Author, dto)`: an unpersisted author record built from the
submitted data (no identifier yet). -/
def authorOfDTO (d : AuthorDTO) : Author :=
  { id := "", name := d.name, email := d.email, school := d.school,
    biography := d.biography, country := d.country }

/-- `findAuthorOrAuthor`: reuse the stored author found by email, otherwise
keep the submitted data as a new author. -/
def findAuthorOrAuthor (env : Env) (d : AuthorDTO) : Author :=
  (findByEmail env d.email).getD (authorOfDTO d)

/-- `ArticleService.create`, translated step by step: author guard, file
validation, author resolution, the three drive calls whose results become
`folderId` / `docId` / `markingGridId`, the non-awaited `shareFile` loop,
`uuid.v4()` assignment, repository save, `article.created` dispatch.
Returns the outcome together with the ordered trace of external effects. -/
def create (env : Env) (dto : ArticleDTO) (file : UploadedFile) :
    Except CreateError Article × List Effect :=
  if authorsInvalid dto then
    (Except.error CreateError.genericError, [])
  else if validateFile env.allowedFormats file = [] then
    let resolved := dto.authors.map (findAuthorOrAuthor env)
    let folderId := env.createFolderRes
    let docId := env.createFileRes
    let markingGridId := env.copyRes
    let article : Article :=
      { id := env.genId, title := dto.title, folderId := folderId, docId := docId,
        markingGridId := markingGridId, wordpressId := none,
        authors := resolved, editors := [] }
    (Except.ok article,
      [Effect.driveCreateFolder dto.title env.googleParent,
       Effect.driveCreateFile dto.title "application/vnd.google-apps.document" folderId,
       Effect.driveCopy env.markingGrid folderId ("Marking Grid for " ++ dto.title)]
      ++ resolved.map (fun a => Effect.driveShareFile docId "writer" a.email)
      ++ [Effect.repoSave article, Effect.dispatchCreated article])
  else
    (Except.error (CreateError.validationErrors (validateFile env.allowedFormats file)), [])

/-- `articleRepository.findOne(id)`: first stored article with that id. -/
def findArticle (store : List Article) (id : String) : Option Article :=
  store.find? (fun a => a.id = id)

/-- Repository `save` as an upsert keyed on `id`. -/
def storeSave (store : List Article) (a : Article) : List Article :=
  if store.any (fun b => b.id = a.id) then
    store.map (fun b => if b.id = a.id then a else b)
  else store ++ [a]

/-- `ArticleService.assign`: load the article (returning `none` untouched
when absent), key the existing editors by id, push every incoming editor
whose id is not an existing key (the key map is never extended during the
loop), save, then dispatch `article.assigned` for every editor of the new
list whose id is not an existing key. The `remove` flag is an
unimplemented no-op. -/
def assign (store : List Article) (id : String) (editors : List Editor)
    (_remove : Bool) : Option Article × List Effect :=
  match findArticle store id with
  | none => (none, [])
  | some article =>
    let existingIds := article.editors.map (fun e => e.id)
    let newEditors :=
      article.editors ++ editors.filter (fun e => decide (e.id ∉ existingIds))
    let updated := { article with editors := newEditors }
    (some updated,
      Effect.repoSave updated ::
        (newEditors.filter (fun e => decide (e.id ∉ existingIds))).map
          (fun e => Effect.dispatchAssigned updated e))

/-- The `{article, wordpress}` response shape, with the remote post
represented by its identifier. -/
structure ArticlePublishResponse where
  article : Article
  wordpress : String
deriving DecidableEq

/-- `ArticleService.publish`: load the article, call the publishing
adapter (its returned post id is the oracle `wpId`), overwrite
`article.wordpressId`, save, return both. A missing article makes the
code dereference `undefined`, so no normal result is produced (`none`). -/
def publish (store : List Article) (id : String) (wpId : String) :
    Option (ArticlePublishResponse × List Article × List Effect) :=
  match findArticle store id with
  | none => none
  | some article =>
    let updated := { article with wordpressId := some wpId }
    some ({ article := updated, wordpress := wpId },
          storeSave store updated,
          [Effect.wpPublishArticle article, Effect.repoSave updated])

/-- `ArticleService.getPublished`: `undefined` (and no adapter call) when
the article is missing; otherwise the pair of the article and the
adapter's response (oracle `wpRes`). -/
def getPublished (store : List Article) (id : String) (wpRes : String) :
    Option ArticlePublishResponse × List Effect :=
  match findArticle store id with
  | none => (none, [])
  | some article =>
    (some { article := article, wordpress := wpRes }, [Effect.wpGetArticle article])

/-- The copyright analysis result; only `articleId` is used by the hook. -/
structure AnalysisResult where
  articleId : String
deriving DecidableEq

/-- A runtime fault: property access on `undefined` (a `TypeError`). -/
inductive RuntimeFault where
  | undefinedDereference
deriving DecidableEq

/-- `article.title` where `article` may be `undefined`: faults when it is. -/
def readTitle : Option Article → Except RuntimeFault String
  | none => Except.error RuntimeFault.undefinedDereference
  | some a => Except.ok a.title

/-- `ArticleService.updateCopyright`: look the article up by the analysis
result's id and immediately access `.title` without any missing-record
check. -/
def updateCopyright (store : List Article) (r : AnalysisResult) :
    Except RuntimeFault String :=
  readTitle (findArticle store r.articleId)

/-- Recogniser for `article.assigned` dispatch effects. -/
def isAssignDispatch : Effect → Bool
  | Effect.dispatchAssigned _ _ => true
  | _ => false

/-- Recogniser for repository-save effects. -/
def isRepoSave : Effect → Bool
  | Effect.repoSave _ => true
  | _ => false

/-- Recogniser for publishing-adapter create calls. -/
def isWpPublish : Effect → Bool
  | Effect.wpPublishArticle _ => true
  | _ => false

/-- Recogniser for a `create` failure that carries a `ValidationError`
aggregate (as opposed to the bare generic error). -/
def isValidationFailure : Except CreateError Article → Bool
  | Except.error (CreateError.validationErrors _) => true
  | _ => false

/-- C7: `getPublished` on an id with no stored article returns `undefined`
and makes no publishing-platform call; on an id with a stored article it
returns the pair of the article and the adapter's response. -/
theorem getPublished_contract (store : List Article) (id wpRes : String) :
    (findArticle store id = none → getPublished store id wpRes = (none, [])) ∧
    (∀ a, findArticle store id = some a →
      getPublished store id wpRes =
        (some { article := a, wordpress := wpRes }, [Effect.wpGetArticle a])) := by
  constructor
  · intro h
    simp [getPublished, h]
  · intro a h
    simp [getPublished, h]

/-- Witness for C7: both branches evaluated at concrete stores. -/
theorem getPublished_contract_witness :
    getPublished [] "a1" "wp" = (none, []) ∧
    getPublished [⟨"a1", "T", "f", "d", "m", none, [], []⟩] "a1" "wp" =
      (some { article := ⟨"a1", "T", "f", "d", "m", none, [], []⟩, wordpress := "wp" },
        [Effect.wpGetArticle ⟨"a1", "T", "f", "d", "m", none, [], []⟩]) :=
  ⟨(getPublished_contract [] "a1" "wp").1 rfl,
   (getPublished_contract [⟨"a1", "T", "f", "d", "m", none, [], []⟩] "a1" "wp").2
     ⟨"a1", "T", "f", "d", "m", none, [], []⟩ (by decide)⟩

/-- C9: when the analysis result's `articleId` matches no stored article,
`updateCopyright` faults by dereferencing the missing (`undefined`)
article instead of returning normally or raising a structured error. -/
theorem updateCopyright_missing_faults (store : List Article) (r : AnalysisResult)
    (h : findArticle store r.articleId = none) :
    updateCopyright store r = Except.error RuntimeFault.undefinedDereference := by
  simp [updateCopyright, h, readTitle]

/-- Witness for C9 on the empty store. -/
theorem updateCopyright_missing_faults_witness :
    updateCopyright [] ⟨"missing"⟩ = Except.error RuntimeFault.undefinedDereference :=
  updateCopyright_missing_faults [] ⟨"missing"⟩ rfl

/-- C2 counterexample: with an empty author list, `create` fails with the
bare generic error of the author guard, not with a `ValidationError`
aggregate as the claim states. -/
theorem create_empty_authors_not_validation_failure :
    (create ⟨"p", "mg", ["text/plain"], [], "F", "D", "M", true, "G"⟩ ⟨"T", []⟩
        ⟨"text/plain", "c"⟩).fst = Except.error CreateError.genericError ∧
    isValidationFailure
      (create ⟨"p", "mg", ["text/plain"], [], "F", "D", "M", true, "G"⟩ ⟨"T", []⟩
        ⟨"text/plain", "c"⟩).fst = false :=
  ⟨rfl, rfl⟩

/-- C2 (amended): an empty or field-invalid author list fails with the
generic error, a disallowed mime type fails with the `ValidationError`
aggregate, and in every such case the failure happens before any external
call: the effect trace is empty. -/
theorem create_fails_before_external_calls (env : Env) (dto : ArticleDTO)
    (file : UploadedFile)
    (h : authorsInvalid dto = true ∨ validateFile env.allowedFormats file ≠ []) :
    (create env dto file).snd = [] ∧
    (create env dto file).fst =
      (if authorsInvalid dto then Except.error CreateError.genericError
       else Except.error
        (CreateError.validationErrors (validateFile env.allowedFormats file))) := by
  rcases h with h | h
  · simp [create, h]
  · by_cases hA : authorsInvalid dto
    · simp [create, hA]
    · simp [create, hA, h]

/-- Witness for C2's amended statement on an empty author list. -/
theorem create_fails_before_external_calls_witness :
    (create ⟨"p", "mg", ["text/plain"], [], "F", "D", "M", true, "G"⟩ ⟨"T", []⟩
        ⟨"text/plain", "c"⟩).snd = [] ∧
    (create ⟨"p", "mg", ["text/plain"], [], "F", "D", "M", true, "G"⟩ ⟨"T", []⟩
        ⟨"text/plain", "c"⟩).fst =
      (if authorsInvalid ⟨"T", []⟩ then Except.error CreateError.genericError
       else Except.error
        (CreateError.validationErrors (validateFile ["text/plain"] ⟨"text/plain", "c"⟩))) :=
  create_fails_before_external_calls
    ⟨"p", "mg", ["text/plain"], [], "F", "D", "M", true, "G"⟩ ⟨"T", []⟩
    ⟨"text/plain", "c"⟩ (Or.inl (by decide))

/-- C5: `create` never reads the outcome of the fire-and-forget `shareFile`
calls: two environments agreeing on every oracle except `shareOk` yield
identical results (value and trace), and with valid input the run
succeeds in both. -/
theorem create_independent_of_share_outcome (env1 env2 : Env) (dto : ArticleDTO)
    (file : UploadedFile)
    (hp : env1.googleParent = env2.googleParent)
    (hm : env1.markingGrid = env2.markingGrid)
    (hf : env1.allowedFormats = env2.allowedFormats)
    (ha : env1.authorStore = env2.authorStore)
    (h1 : env1.createFolderRes = env2.createFolderRes)
    (h2 : env1.createFileRes = env2.createFileRes)
    (h3 : env1.copyRes = env2.copyRes)
    (hg : env1.genId = env2.genId)
    (hA : authorsInvalid dto = false)
    (hF : validateFile env1.allowedFormats file = []) :
    create env1 dto file = create env2 dto file ∧
    ∃ a, (create env1 dto file).fst = Except.ok a := by
  constructor
  · obtain ⟨p1, m1, f1, a1, c1, d1, e1, s1, g1⟩ := env1
    obtain ⟨p2, m2, f2, a2, c2, d2, e2, s2, g2⟩ := env2
    simp only at hp hm hf ha h1 h2 h3 hg
    subst hp hm hf ha h1 h2 h3 hg
    rfl
  · simp [create, hA, hF]

/-- Witness for C5: two concrete environments differing only in the
shareFile outcome. -/
theorem create_independent_of_share_outcome_witness :
    create ⟨"p", "mg", ["text/plain"], [], "F", "D", "M", true, "G"⟩
        ⟨"T", [⟨"N", "n@x", "S", "B", "C"⟩]⟩ ⟨"text/plain", "c"⟩ =
      create ⟨"p", "mg", ["text/plain"], [], "F", "D", "M", false, "G"⟩
        ⟨"T", [⟨"N", "n@x", "S", "B", "C"⟩]⟩ ⟨"text/plain", "c"⟩ ∧
    ∃ a, (create ⟨"p", "mg", ["text/plain"], [], "F", "D", "M", true, "G"⟩
        ⟨"T", [⟨"N", "n@x", "S", "B", "C"⟩]⟩ ⟨"text/plain", "c"⟩).fst = Except.ok a :=
  create_independent_of_share_outcome
    ⟨"p", "mg", ["text/plain"], [], "F", "D", "M", true, "G"⟩
    ⟨"p", "mg", ["text/plain"], [], "F", "D", "M", false, "G"⟩
    ⟨"T", [⟨"N", "n@x", "S", "B", "C"⟩]⟩ ⟨"text/plain", "c"⟩
    rfl rfl rfl rfl rfl rfl rfl rfl (by decide) (by decide)

/-- A list of editors filtered down to those whose id is not among the
list's own ids is empty. -/
theorem filter_not_mem_self (l : List Editor) :
    l.filter (fun x => decide (x.id ∉ l.map (fun y => y.id))) = [] := by
  apply List.filter_eq_nil_iff.mpr
  intro x hx
  simp only [decide_eq_true_eq, not_not]
  exact List.mem_map_of_mem _ hx

/-- Filtering a two-element repetition with a predicate that holds on the
element keeps both occurrences. -/
theorem filter_pair_pos {α : Type} (p : α → Bool) (e : α) (hp : p e = true) :
    [e, e].filter p = [e, e] := by
  rw [List.filter_cons_of_pos hp, List.filter_cons_of_pos hp, List.filter_nil]

/-- C1 counterexample: assigning `[editorA, editorA]` to an article with no
editors leaves `editorA` twice in the final editor list and dispatches two
`article.assigned` events, because the existing-editor key map is not
extended while pushing. -/
theorem assign_duplicate_input_cex :
    ((assign [⟨"a1", "T", "f", "d", "m", none, [], []⟩] "a1"
        [⟨"ed1", "A", "a@x"⟩, ⟨"ed1", "A", "a@x"⟩] false).fst.map
      (fun a => a.editors.count ⟨"ed1", "A", "a@x"⟩)) = some 2 ∧
    ((assign [⟨"a1", "T", "f", "d", "m", none, [], []⟩] "a1"
        [⟨"ed1", "A", "a@x"⟩, ⟨"ed1", "A", "a@x"⟩] false).snd.countP
      (fun eff => match eff with
        | Effect.dispatchAssigned _ e => e.id == "ed1"
        | _ => false)) = 2 := by
  decide

/-- Unfolding of `assign` when the article is found: the updated article
carries the appended editor list, and the trace is the save followed by
one dispatch per freshly appended editor. -/
theorem assign_found (store : List Article) (id : String) (editors : List Editor)
    (rm : Bool) (article : Article) (hfind : findArticle store id = some article) :
    assign store id editors rm =
      (some { article with editors := (article.editors ++
          editors.filter (fun e => decide (e.id ∉ article.editors.map (fun x => x.id)))) },
       Effect.repoSave
          { article with editors := (article.editors ++
              editors.filter (fun e => decide (e.id ∉ article.editors.map (fun x => x.id)))) } ::
        ((article.editors ++
            editors.filter (fun e => decide (e.id ∉ article.editors.map (fun x => x.id)))).filter
              (fun e => decide (e.id ∉ article.editors.map (fun x => x.id)))).map
          (fun e => Effect.dispatchAssigned
            { article with editors := (article.editors ++
                editors.filter (fun e => decide (e.id ∉ article.editors.map (fun x => x.id)))) }
            e)) := by
  unfold assign
  rw [hfind]

/-- C1 (amended): assigning `[e, e]` where `e` is not yet assigned appends
`e` twice to the editor list and dispatches the `article.assigned` event
for `e` twice — once per occurrence in the input. -/
theorem assign_duplicate_input (store : List Article) (id : String)
    (article : Article) (e : Editor)
    (hfind : findArticle store id = some article)
    (hnew : e.id ∉ article.editors.map (fun x => x.id)) :
    (assign store id [e, e] false).fst =
      some { article with editors := article.editors ++ [e, e] } ∧
    (assign store id [e, e] false).snd =
      Effect.repoSave { article with editors := article.editors ++ [e, e] } ::
        [Effect.dispatchAssigned { article with editors := article.editors ++ [e, e] } e,
         Effect.dispatchAssigned { article with editors := article.editors ++ [e, e] } e] := by
  have hdec : decide (e.id ∉ article.editors.map (fun y => y.id)) = true :=
    decide_eq_true hnew
  have h1 : [e, e].filter (fun x => decide (x.id ∉ article.editors.map (fun y => y.id))) =
      [e, e] :=
    filter_pair_pos (fun x => decide (x.id ∉ article.editors.map (fun y => y.id))) e hdec
  have h2 : (article.editors ++ [e, e]).filter
      (fun x => decide (x.id ∉ article.editors.map (fun y => y.id))) = [e, e] := by
    rw [List.filter_append, filter_not_mem_self, h1, List.nil_append]
  rw [assign_found store id [e, e] false article hfind, h1, h2]
  exact ⟨rfl, rfl⟩

/-- Witness for C1's amended statement. -/
theorem assign_duplicate_input_witness :
    (assign [⟨"a1", "T", "f", "d", "m", none, [], []⟩] "a1"
        [⟨"ed1", "A", "a@x"⟩, ⟨"ed1", "A", "a@x"⟩] false).fst =
      some ⟨"a1", "T", "f", "d", "m", none, [],
            [⟨"ed1", "A", "a@x"⟩, ⟨"ed1", "A", "a@x"⟩]⟩ :=
  (assign_duplicate_input [⟨"a1", "T", "f", "d", "m", none, [], []⟩] "a1"
    ⟨"a1", "T", "f", "d", "m", none, [], []⟩ ⟨"ed1", "A", "a@x"⟩
    (by decide) (by decide)).1

/-- C8: when every incoming editor's id is already among the article's
editors, `assign` leaves the persisted editor list unchanged and
dispatches zero events: the run is exactly one repository save of the
unchanged article. -/
theorem assign_already_assigned (store : List Article) (id : String)
    (article : Article) (editors : List Editor) (rm : Bool)
    (hfind : findArticle store id = some article)
    (hall : ∀ e ∈ editors, e.id ∈ article.editors.map (fun x => x.id)) :
    assign store id editors rm = (some article, [Effect.repoSave article]) := by
  have hfilter :
      editors.filter (fun x => decide (x.id ∉ article.editors.map (fun y => y.id))) = [] := by
    apply List.filter_eq_nil_iff.mpr
    intro x hx
    simp only [decide_eq_true_eq, not_not]
    exact hall x hx
  rw [assign_found store id editors rm article hfind, hfilter, List.append_nil,
    filter_not_mem_self]
  rfl

/-- Witness for C8: re-assigning the already-assigned editor. -/
theorem assign_already_assigned_witness :
    assign [⟨"a1", "T", "f", "d", "m", none, [], [⟨"ed1", "A", "a@x"⟩]⟩] "a1"
        [⟨"ed1", "A", "a@x"⟩] false =
      (some ⟨"a1", "T", "f", "d", "m", none, [], [⟨"ed1", "A", "a@x"⟩]⟩,
       [Effect.repoSave ⟨"a1", "T", "f", "d", "m", none, [], [⟨"ed1", "A", "a@x"⟩]⟩]) :=
  assign_already_assigned [⟨"a1", "T", "f", "d", "m", none, [], [⟨"ed1", "A", "a@x"⟩]⟩]
    "a1" ⟨"a1", "T", "f", "d", "m", none, [], [⟨"ed1", "A", "a@x"⟩]⟩
    [⟨"ed1", "A", "a@x"⟩] false (by decide) (by decide)

/-- In a trace whose head is a repository save, every `article.assigned`
dispatch is preceded by a save. -/
theorem saves_before_aux (tr : List Effect)
    (htr : ∃ x, tr.head? = some x ∧ isRepoSave x = true) :
    ∀ i : Fin tr.length, isAssignDispatch (tr.get i) = true →
      ∃ j : Fin tr.length, j.val < i.val ∧ isRepoSave (tr.get j) = true := by
  obtain ⟨x, hx, hsave⟩ := htr
  cases tr with
  | nil => cases hx
  | cons hd ds =>
    obtain rfl : hd = x := by simpa using hx
    intro i hdisp
    rcases i with ⟨iv, hi⟩
    cases iv with
    | zero =>
      cases hd <;> first
        | exact Bool.noConfusion hsave
        | exact Bool.noConfusion hdisp
    | succ k => exact ⟨⟨0, Nat.succ_pos _⟩, Nat.succ_pos _, hsave⟩

/-- C10: in every run of `assign`, any `article.assigned` dispatch in the
effect trace is preceded by a repository save: the updated article is
persisted before any event for it is emitted. -/
theorem assign_saves_before_dispatch (store : List Article) (id : String)
    (editors : List Editor) (rm : Bool) :
    ∀ i : Fin (assign store id editors rm).snd.length,
      isAssignDispatch ((assign store id editors rm).snd.get i) = true →
      ∃ j : Fin (assign store id editors rm).snd.length,
        j.val < i.val ∧ isRepoSave ((assign store id editors rm).snd.get j) = true := by
  cases h : findArticle store id with
  | none =>
    have hnil : (assign store id editors rm).snd = [] := by
      unfold assign
      rw [h]
    have h0 : (assign store id editors rm).snd.length = 0 := by rw [hnil]; rfl
    intro i hdisp
    obtain ⟨iv, hi⟩ := i
    clear hdisp
    rw [h0] at hi
    exact absurd hi (Nat.not_lt_zero _)
  | some article =>
    apply saves_before_aux
    rw [assign_found store id editors rm article h]
    exact ⟨_, rfl, rfl⟩

/-- Witness for C10: the dispatch at index 1 of a concrete run is preceded
by the save at index 0. -/
theorem assign_saves_before_dispatch_witness :
    ∃ j : Fin (assign [⟨"a1", "T", "f", "d", "m", none, [], []⟩] "a1"
          [⟨"ed1", "A", "a@x"⟩] false).snd.length,
      j.val < 1 ∧
      isRepoSave ((assign [⟨"a1", "T", "f", "d", "m", none, [], []⟩] "a1"
          [⟨"ed1", "A", "a@x"⟩] false).snd.get j) = true :=
  assign_saves_before_dispatch [⟨"a1", "T", "f", "d", "m", none, [], []⟩] "a1"
    [⟨"ed1", "A", "a@x"⟩] false ⟨1, by decide⟩ (by decide)

/-- Unfolding of `create` on valid input: the returned article carries the
adapter-returned identifiers and the generated id, and the trace is the
three drive calls, one share per resolved author, the save and the
`article.created` dispatch, in source order. -/
theorem create_ok (env : Env) (dto : ArticleDTO) (file : UploadedFile)
    (hA : authorsInvalid dto = false)
    (hF : validateFile env.allowedFormats file = []) :
    create env dto file =
      (Except.ok
        { id := env.genId, title := dto.title, folderId := env.createFolderRes,
          docId := env.createFileRes, markingGridId := env.copyRes, wordpressId := none,
          authors := dto.authors.map (findAuthorOrAuthor env), editors := [] },
       [Effect.driveCreateFolder dto.title env.googleParent,
        Effect.driveCreateFile dto.title "application/vnd.google-apps.document"
          env.createFolderRes,
        Effect.driveCopy env.markingGrid env.createFolderRes
          ("Marking Grid for " ++ dto.title)]
       ++ (dto.authors.map (findAuthorOrAuthor env)).map
            (fun a => Effect.driveShareFile env.createFileRes "writer" a.email)
       ++ [Effect.repoSave
            { id := env.genId, title := dto.title, folderId := env.createFolderRes,
              docId := env.createFileRes, markingGridId := env.copyRes, wordpressId := none,
              authors := dto.authors.map (findAuthorOrAuthor env), editors := [] },
           Effect.dispatchCreated
            { id := env.genId, title := dto.title, folderId := env.createFolderRes,
              docId := env.createFileRes, markingGridId := env.copyRes, wordpressId := none,
              authors := dto.authors.map (findAuthorOrAuthor env), editors := [] }]) := by
  unfold create
  rw [hA, hF]
  rfl

/-- C3: on valid input the persisted and returned article's `folderId`,
`docId` and `markingGridId` are exactly the document-storage adapter's
`createFolder`, `createFile` and `copy` results, its `id` is the freshly
generated identifier, and — whenever the generated identifier differs
from every adapter-returned and resolved-author identifier — the
article's id is distinct from all of them. -/
theorem create_persists_adapter_ids (env : Env) (dto : ArticleDTO) (file : UploadedFile)
    (hA : authorsInvalid dto = false)
    (hF : validateFile env.allowedFormats file = []) :
    ∃ a, (create env dto file).fst = Except.ok a ∧
      a.folderId = env.createFolderRes ∧
      a.docId = env.createFileRes ∧
      a.markingGridId = env.copyRes ∧
      a.id = env.genId ∧
      Effect.repoSave a ∈ (create env dto file).snd ∧
      (env.genId ∉ [env.createFolderRes, env.createFileRes, env.copyRes] →
        a.id ≠ a.folderId ∧ a.id ≠ a.docId ∧ a.id ≠ a.markingGridId) ∧
      (env.genId ∉ dto.authors.map (fun d => (findAuthorOrAuthor env d).id) →
        a.id ∉ a.authors.map (fun x => x.id)) := by
  rw [create_ok env dto file hA hF]
  refine ⟨_, rfl, rfl, rfl, rfl, rfl, ?_, ?_, ?_⟩
  · simp
  · intro hmem
    simp only [List.mem_cons, List.not_mem_nil, or_false, not_or] at hmem
    exact ⟨hmem.1, hmem.2.1, hmem.2.2⟩
  · intro hmem
    simpa [List.map_map, Function.comp] using hmem

/-- Witness for C3 on a concrete valid input. -/
theorem create_persists_adapter_ids_witness :
    ∃ a, (create ⟨"p", "mg", ["text/plain"], [], "F", "D", "M", true, "G"⟩
        ⟨"T", [⟨"N", "n@x", "S", "B", "C"⟩]⟩ ⟨"text/plain", "c"⟩).fst = Except.ok a ∧
      a.folderId = "F" ∧ a.docId = "D" ∧ a.markingGridId = "M" ∧ a.id = "G" ∧
      Effect.repoSave a ∈ (create ⟨"p", "mg", ["text/plain"], [], "F", "D", "M", true, "G"⟩
        ⟨"T", [⟨"N", "n@x", "S", "B", "C"⟩]⟩ ⟨"text/plain", "c"⟩).snd ∧
      ("G" ∉ ["F", "D", "M"] →
        a.id ≠ a.folderId ∧ a.id ≠ a.docId ∧ a.id ≠ a.markingGridId) ∧
      ("G" ∉ ([⟨"N", "n@x", "S", "B", "C"⟩] : List AuthorDTO).map
          (fun d => (findAuthorOrAuthor
            ⟨"p", "mg", ["text/plain"], [], "F", "D", "M", true, "G"⟩ d).id) →
        a.id ∉ a.authors.map (fun x => x.id)) :=
  create_persists_adapter_ids ⟨"p", "mg", ["text/plain"], [], "F", "D", "M", true, "G"⟩
    ⟨"T", [⟨"N", "n@x", "S", "B", "C"⟩]⟩ ⟨"text/plain", "c"⟩ (by decide) (by decide)

/-- C4: when a submitted author's email matches a stored author, `create`
resolves it to that stored record: the persisted article's author list
contains the existing record and references its identifier. -/
theorem create_reuses_existing_author (env : Env) (dto : ArticleDTO)
    (file : UploadedFile) (d : AuthorDTO) (ex : Author)
    (hA : authorsInvalid dto = false)
    (hF : validateFile env.allowedFormats file = [])
    (hd : d ∈ dto.authors)
    (hex : findByEmail env d.email = some ex) :
    ∃ a, (create env dto file).fst = Except.ok a ∧
      ex ∈ a.authors ∧
      ex.id ∈ a.authors.map (fun x => x.id) ∧
      Effect.repoSave a ∈ (create env dto file).snd := by
  have hres : findAuthorOrAuthor env d = ex := by
    unfold findAuthorOrAuthor
    rw [hex]
    rfl
  have hmem : ex ∈ dto.authors.map (findAuthorOrAuthor env) := by
    rw [← hres]
    exact List.mem_map_of_mem _ hd
  rw [create_ok env dto file hA hF]
  exact ⟨_, rfl, hmem, List.mem_map_of_mem _ hmem, by simp⟩

/-- Witness for C4: the submitted author's email matches the stored author
with id `A7`, and the created article references that record. -/
theorem create_reuses_existing_author_witness :
    ∃ a, (create ⟨"p", "mg", ["text/plain"], [⟨"A7", "N0", "n@x", "S0", "B0", "C0"⟩],
        "F", "D", "M", true, "G"⟩
        ⟨"T", [⟨"N", "n@x", "S", "B", "C"⟩]⟩ ⟨"text/plain", "c"⟩).fst = Except.ok a ∧
      (⟨"A7", "N0", "n@x", "S0", "B0", "C0"⟩ : Author) ∈ a.authors ∧
      (⟨"A7", "N0", "n@x", "S0", "B0", "C0"⟩ : Author).id ∈ a.authors.map (fun x => x.id) ∧
      Effect.repoSave a ∈ (create ⟨"p", "mg", ["text/plain"],
        [⟨"A7", "N0", "n@x", "S0", "B0", "C0"⟩], "F", "D", "M", true, "G"⟩
        ⟨"T", [⟨"N", "n@x", "S", "B", "C"⟩]⟩ ⟨"text/plain", "c"⟩).snd :=
  create_reuses_existing_author
    ⟨"p", "mg", ["text/plain"], [⟨"A7", "N0", "n@x", "S0", "B0", "C0"⟩], "F", "D", "M",
      true, "G"⟩
    ⟨"T", [⟨"N", "n@x", "S", "B", "C"⟩]⟩ ⟨"text/plain", "c"⟩
    ⟨"N", "n@x", "S", "B", "C"⟩ ⟨"A7", "N0", "n@x", "S0", "B0", "C0"⟩
    (by decide) (by decide) (by decide) (by decide)

/-- Replacing every article of a matching id in a list and then searching
for that id finds the replacement, provided some article with the id was
present. -/
theorem find_map_replace (store : List Article) (b : Article) (id : String)
    (hid : b.id = id)
    (hex : ∃ x ∈ store, x.id = id) :
    (store.map (fun x => if x.id = b.id then b else x)).find?
      (fun y => y.id = id) = some b := by
  induction store with
  | nil => exact absurd hex (by simp)
  | cons c cs ih =>
    rw [List.map_cons]
    by_cases hc : c.id = b.id
    · rw [if_pos hc]
      exact List.find?_cons_of_pos _ (decide_eq_true hid)
    · rw [if_neg hc]
      have hcid : ¬ ((fun y => decide (y.id = id)) c = true) := by
        simp only [decide_eq_true_eq]
        intro hcc
        exact hc (hcc.trans hid.symm)
      rw [List.find?_cons_of_neg (p := fun (y : Article) => decide (y.id = id)) _ hcid]
      apply ih
      rcases hex with ⟨x, hx, hxid⟩
      rcases List.mem_cons.mp hx with h' | h'
      · exact absurd hxid (by rw [h']; exact fun hh => hc (hh.trans hid.symm))
      · exact ⟨x, h', hxid⟩

/-- A successful `findOne` returns an article bearing the searched id. -/
theorem findArticle_some_id (store : List Article) (id : String) (a : Article)
    (h : findArticle store id = some a) : a.id = id := by
  have h' : List.find? (fun x => decide (x.id = id)) store = some a := h
  exact of_decide_eq_true
    (List.find?_some (p := fun (x : Article) => decide (x.id = id)) h')

/-- A successful `findOne` returns an article of the store. -/
theorem findArticle_some_mem (store : List Article) (id : String) (a : Article)
    (h : findArticle store id = some a) : a ∈ store := by
  have h' : List.find? (fun x => decide (x.id = id)) store = some a := h
  exact List.mem_of_find?_eq_some h'

/-- Saving an article whose id is already present updates in place: a
subsequent lookup by that id returns the saved article. -/
theorem findArticle_storeSave (store : List Article) (b : Article) (id : String)
    (hid : b.id = id) (a : Article) (hfind : findArticle store id = some a) :
    findArticle (storeSave store b) id = some b := by
  have hmem : a ∈ store := findArticle_some_mem store id a hfind
  have haid : a.id = id := findArticle_some_id store id a hfind
  have hany : store.any (fun x => x.id = b.id) = true :=
    List.any_eq_true.mpr ⟨a, hmem, decide_eq_true (by rw [haid, hid])⟩
  unfold storeSave
  rw [if_pos hany]
  exact find_map_replace store b id hid ⟨a, hmem, haid⟩

/-- Unfolding of `publish` when the article is found: the adapter is
called on the loaded article, the returned post id overwrites
`wordpressId`, and the mutated article is saved and returned. -/
theorem publish_found (store : List Article) (id wpId : String) (article : Article)
    (hfind : findArticle store id = some article) :
    publish store id wpId =
      some ({ article := { article with wordpressId := some wpId }, wordpress := wpId },
            storeSave store { article with wordpressId := some wpId },
            [Effect.wpPublishArticle article,
             Effect.repoSave { article with wordpressId := some wpId }]) := by
  unfold publish
  rw [hfind]

/-- C6: publishing the same existing article twice calls the publishing
adapter's create operation twice — once per run — and the second returned
identifier overwrites the first in the stored article's `wordpressId`. -/
theorem publish_twice_not_idempotent (store : List Article) (id w1 w2 : String)
    (a : Article) (hfind : findArticle store id = some a) :
    ∃ r1 store1 t1, publish store id w1 = some (r1, store1, t1) ∧
    ∃ r2 store2 t2, publish store1 id w2 = some (r2, store2, t2) ∧
      (t1 ++ t2).countP isWpPublish = 2 ∧
      r1.article.wordpressId = some w1 ∧
      (∃ b, findArticle store2 id = some b ∧ b.wordpressId = some w2) := by
  have haid : a.id = id := findArticle_some_id store id a hfind
  have h1 := publish_found store id w1 a hfind
  have hfind1 : findArticle (storeSave store { a with wordpressId := some w1 }) id =
      some { a with wordpressId := some w1 } :=
    findArticle_storeSave store { a with wordpressId := some w1 } id haid a hfind
  have h2 := publish_found (storeSave store { a with wordpressId := some w1 }) id w2
    { a with wordpressId := some w1 } hfind1
  refine ⟨_, _, _, h1, _, _, _, h2, rfl, rfl, ?_⟩
  refine ⟨{ a with wordpressId := some w2 }, ?_, rfl⟩
  exact findArticle_storeSave _ { a with wordpressId := some w2 } id haid
    { a with wordpressId := some w1 } hfind1

/-- Witness for C6 on a singleton store. -/
theorem publish_twice_not_idempotent_witness :
    ∃ r1 store1 t1,
      publish [⟨"a1", "T", "f", "d", "m", none, [], []⟩] "a1" "w1" =
        some (r1, store1, t1) ∧
    ∃ r2 store2 t2, publish store1 "a1" "w2" = some (r2, store2, t2) ∧
      (t1 ++ t2).countP isWpPublish = 2 ∧
      r1.article.wordpressId = some "w1" ∧
      (∃ b, findArticle store2 "a1" = some b ∧ b.wordpressId = some "w2") :=
  publish_twice_not_idempotent [⟨"a1", "T", "f", "d", "m", none, [], []⟩] "a1" "w1" "w2"
    ⟨"a1", "T", "f", "d", "m", none, [], []⟩ (by decide)

end ArticleManagement
